import Mathlib

/-!
Shallow embedding of the verzod versioned-entity migration engine
(`src/index.ts`) and proofs about its specification.

Modelling conventions:
* TypeScript numbers that serve as version keys are modelled as `ℚ`
  (covers negative, zero and fractional version numbers; `NaN`/`Infinity`
  are outside the model).
* A zod schema is modelled by its `safeParse` behaviour on values of the
  entity's data type `α`: it either succeeds with the parsed (possibly
  transformed) data, fails with a structured `ZodError`, or lets an
  exception escape (`thrown`) — the latter is how a nested
  `entityReference` transform signals an invariant violation.
* Functions that can observably throw in JavaScript (`is`, `isLatest`,
  `safeParse`) return `Except String _`, where `.error msg` models an
  exception propagating out of the call.
* The `for` loop of `VersionedEntity.safeParse` is translated to
  structural recursion on the iteration count
  `((latestVersion - ver).floor).toNat`, which is exactly the number of
  executions of the loop body `for (let up = ver + 1; up <= latest; up++)`.
-/

namespace Verzod

/-- Models zod's `ZodError`: the structured rejection detail attached to a
failed validation.  The engine treats it as uninterpreted data, so a single
message field suffices. -/
structure ZodError where
  message : String
deriving DecidableEq, Repr

/-- Outcome of running a zod schema's `safeParse` on a value: success with
the parsed data, failure with a `ZodError`, or an exception escaping
(thrown by a `.transform`, as in `entityReference`). -/
inductive ZResult (α : Type) where
  | success (data : α)
  | failure (error : ZodError)
  | thrown (msg : String)

/-- A zod schema over entity data `α`, identified with its `safeParse`
behaviour. -/
structure ZodSchema (α : Type) where
  run : α → ZResult α

/-- `Version` from `src/index.ts`: a schema tagged either as the initial
version (no `up`) or as a non-initial version carrying the migration
function `up` from the previous version. -/
inductive Version (α : Type) where
  | initial (schema : ZodSchema α)
  | upgradeable (schema : ZodSchema α) (up : α → α)

/-- The `schema` field shared by both variants of `Version`. -/
def Version.schema : Version α → ZodSchema α
  | .initial s => s
  | .upgradeable s _ => s

/-- `defineVersion` from `src/index.ts` — an identity helper. -/
def defineVersion (d : Version α) : Version α := d

/-- The error alternatives of `ParseResult` from `src/index.ts`. -/
inductive ParseError (α : Type) where
  | VER_CHECK_FAIL
  | INVALID_VER
  | GIVEN_VER_VALIDATION_FAIL (version : ℚ) (versionDef : Version α) (error : ZodError)
  | BUG_NO_INTERMEDIATE_FOUND (missingVer : ℚ)
  | BUG_INTERMEDIATE_MARKED_INITIAL (ver : ℚ)

/-- `ParseResult` from `src/index.ts`. -/
inductive ParseResult (α : Type) where
  | ok (value : α)
  | err (error : ParseError α)

/-- Classifies the three caller-data error kinds (`true`) against the two
entity-authoring defect kinds (`false`). -/
def ParseError.isCallerError : ParseError α → Bool
  | .VER_CHECK_FAIL => true
  | .INVALID_VER => true
  | .GIVEN_VER_VALIDATION_FAIL _ _ _ => true
  | .BUG_NO_INTERMEDIATE_FOUND _ => false
  | .BUG_INTERMEDIATE_MARKED_INITIAL _ => false

/-- `true` exactly when an entity `safeParse` call returned normally with a
Success result. -/
def parseSucceeded : Except String (ParseResult α) → Bool
  | .ok (.ok _) => true
  | _ => false

/-- `true` exactly when a schema run ended in an exception escaping. -/
def ZResult.isThrown : ZResult α → Bool
  | .thrown _ => true
  | _ => false

/-- `true` exactly when a schema run ended in an ordinary validation
rejection. -/
def ZResult.isFailure : ZResult α → Bool
  | .failure _ => true
  | _ => false

/-- The `VersionedEntity` class state from `src/index.ts`: the version map
(a possibly sparse mapping from version numbers), the declared latest
version, and the resolver. -/
structure VersionedEntity (α : Type) where
  versionMap : ℚ → Option (Version α)
  latestVersion : ℚ
  getVersion : α → Option ℚ

/-- The migration `for` loop of `VersionedEntity.safeParse`
(`src/index.ts` lines 206-224): `fuel` counts the remaining iterations and
`cur` is the loop variable `up`. -/
def upgradeLoop (vm : ℚ → Option (Version α)) : Nat → ℚ → α → ParseResult α
  | 0, _, d => .ok d
  | fuel + 1, cur, d =>
    match vm cur with
    | none => .err (.BUG_NO_INTERMEDIATE_FOUND cur)
    | some (.initial _) => .err (.BUG_INTERMEDIATE_MARKED_INITIAL cur)
    | some (.upgradeable _ up) => upgradeLoop vm fuel (cur + 1) (up d)

/-- `VersionedEntity.is` from `src/index.ts`: resolve the version, look it
up, and report whether the schema validation succeeds.  `.error` models an
exception thrown inside the schema escaping the call. -/
def VersionedEntity.is (e : VersionedEntity α) (data : α) : Except String Bool :=
  match e.getVersion data with
  | none => .ok false
  | some ver =>
    match e.versionMap ver with
    | none => .ok false
    | some verDef =>
      match verDef.schema.run data with
      | .success _ => .ok true
      | .failure _ => .ok false
      | .thrown msg => .error msg

/-- `VersionedEntity.isLatest` from `src/index.ts`: validate strictly
against the latest version's schema.  If the latest version is absent from
the map the original code dereferences `undefined` and throws, modelled by
the `.error` branch. -/
def VersionedEntity.isLatest (e : VersionedEntity α) (data : α) : Except String Bool :=
  match e.versionMap e.latestVersion with
  | none => .error "TypeError: latest version missing from versionMap"
  | some verDef =>
    match verDef.schema.run data with
    | .success _ => .ok true
    | .failure _ => .ok false
    | .thrown msg => .error msg

/-- `VersionedEntity.safeParse` from `src/index.ts`: resolve, look up,
validate, then run the migration loop from `ver + 1` up to
`latestVersion`.  The loop body runs `((latestVersion - ver).floor).toNat`
times.  Note that the loop starts from the validator's parsed output
`pass.data`, not from the raw input. -/
def VersionedEntity.safeParse (e : VersionedEntity α) (data : α) :
    Except String (ParseResult α) :=
  match e.getVersion data with
  | none => .ok (.err .VER_CHECK_FAIL)
  | some ver =>
    match e.versionMap ver with
    | none => .ok (.err .INVALID_VER)
    | some verDef =>
      match verDef.schema.run data with
      | .thrown msg => .error msg
      | .failure zerr => .ok (.err (.GIVEN_VER_VALIDATION_FAIL ver verDef zerr))
      | .success pass =>
        .ok (upgradeLoop e.versionMap ((e.latestVersion - ver).floor).toNat (ver + 1) pass)

/-- Instrumented copy of `upgradeLoop` that also records, in order, the
versions at which an `up` function is invoked. -/
def upgradeLoopTrace (vm : ℚ → Option (Version α)) : Nat → ℚ → α → List ℚ × ParseResult α
  | 0, _, d => ([], .ok d)
  | fuel + 1, cur, d =>
    match vm cur with
    | none => ([], .err (.BUG_NO_INTERMEDIATE_FOUND cur))
    | some (.initial _) => ([], .err (.BUG_INTERMEDIATE_MARKED_INITIAL cur))
    | some (.upgradeable _ up) =>
      let r := upgradeLoopTrace vm fuel (cur + 1) (up d)
      (cur :: r.1, r.2)

/-- Instrumented copy of `safeParse` recording the versions at which an
`up` function is invoked (empty for every pre-migration outcome). -/
def VersionedEntity.safeParseTrace (e : VersionedEntity α) (data : α) :
    List ℚ × Except String (ParseResult α) :=
  match e.getVersion data with
  | none => ([], .ok (.err .VER_CHECK_FAIL))
  | some ver =>
    match e.versionMap ver with
    | none => ([], .ok (.err .INVALID_VER))
    | some verDef =>
      match verDef.schema.run data with
      | .thrown msg => ([], .error msg)
      | .failure zerr => ([], .ok (.err (.GIVEN_VER_VALIDATION_FAIL ver verDef zerr)))
      | .success pass =>
        let r := upgradeLoopTrace e.versionMap ((e.latestVersion - ver).floor).toNat (ver + 1) pass
        (r.1, .ok r.2)

/-- The message of the `Error` thrown by `entityReference`'s transform when
`is` and `safeParse` disagree (`src/index.ts` line 281-283). -/
def invariantViolationMsg : String :=
  "Invalid entity definition. `entity.is` returned success, safeParse failed."

/-- The `ZodError` produced when `z.custom`'s predicate rejects a value. -/
def customRejection : ZodError := ⟨"Invalid input"⟩

/-- `entityReference` from `src/index.ts`: a zod schema whose predicate is
`entity.is` and whose transform runs `entity.safeParse`, throwing an
`Error` when the membership test accepted but `safeParse` did not return
Success. -/
def entityReference (e : VersionedEntity α) : ZodSchema α where
  run data :=
    match e.is data with
    | .error msg => .thrown msg
    | .ok false => .failure customRejection
    | .ok true =>
      match e.safeParse data with
      | .error msg => .thrown msg
      | .ok (.ok v) => .success v
      | .ok (.err _) => .thrown invariantViolationMsg

/-! ## Helper lemmas about the migration loop and its fuel computation -/

/-- `Rat.floor` agrees with the `Int.floor` of the `FloorRing ℚ` instance. -/
theorem ratFloor_eq_intFloor (q : ℚ) : q.floor = ⌊q⌋ :=
  (Rat.floor_def' q).trans Rat.floor_def.symm

/-- Iteration `i` of the loop body runs exactly when its loop variable
`ver + 1 + i` has not yet passed `lat`. -/
theorem lt_floorFuel_iff (lat ver : ℚ) (i : Nat) :
    i < ((lat - ver).floor).toNat ↔ ver + 1 + (i : ℚ) ≤ lat := by
  rw [ratFloor_eq_intFloor, Int.lt_toNat, Int.lt_iff_add_one_le, Int.le_floor]
  push_cast
  constructor <;> intro h <;> linarith

/-- Fuel for an integral span `k..N` is exactly `N - k`. -/
theorem floorFuel_natCast (N k : Nat) (h : k ≤ N) :
    (((N : ℚ) - (k : ℚ)).floor).toNat = N - k := by
  rw [ratFloor_eq_intFloor]
  have hcast : ((N : ℚ) - (k : ℚ)) = (((N : ℤ) - (k : ℤ) : ℤ) : ℚ) := by push_cast; ring
  rw [hcast, Int.floor_intCast]
  omega

/-- Shifting the base point of a `List.range`-indexed arithmetic progression. -/
theorem range_map_shift (cur : ℚ) (n : Nat) :
    (List.range (n + 1)).map (fun (j : Nat) => cur + (j : ℚ)) =
      cur :: (List.range n).map (fun (j : Nat) => (cur + 1) + (j : ℚ)) := by
  rw [List.range_succ_eq_map, List.map_cons, List.map_map]
  refine congrArg₂ List.cons (by simp) (List.map_congr_left fun a _ => ?_)
  simp only [Function.comp_apply]
  push_cast
  ring

/-- The instrumented loop computes the same result as the plain loop. -/
theorem upgradeLoopTrace_snd (vm : ℚ → Option (Version α)) (n : Nat) :
    ∀ (cur : ℚ) (d : α), (upgradeLoopTrace vm n cur d).2 = upgradeLoop vm n cur d := by
  induction n with
  | zero => intro cur d; rfl
  | succ n ih =>
    intro cur d
    unfold upgradeLoopTrace upgradeLoop
    cases hv : vm cur with
    | none => rfl
    | some v =>
      cases v with
      | initial s => rfl
      | upgradeable s u => simpa using ih (cur + 1) (u d)

/-- The instrumented `safeParse` computes the same result as `safeParse`. -/
theorem safeParseTrace_snd (e : VersionedEntity α) (x : α) :
    (e.safeParseTrace x).2 = e.safeParse x := by
  cases hgv : e.getVersion x with
  | none => simp [VersionedEntity.safeParseTrace, VersionedEntity.safeParse, hgv]
  | some ver =>
    cases hvm : e.versionMap ver with
    | none => simp [VersionedEntity.safeParseTrace, VersionedEntity.safeParse, hgv, hvm]
    | some verDef =>
      cases hrun : verDef.schema.run x with
      | success pass =>
        simp [VersionedEntity.safeParseTrace, VersionedEntity.safeParse, hgv, hvm, hrun,
          upgradeLoopTrace_snd]
      | failure zerr =>
        simp [VersionedEntity.safeParseTrace, VersionedEntity.safeParse, hgv, hvm, hrun]
      | thrown msg =>
        simp [VersionedEntity.safeParseTrace, VersionedEntity.safeParse, hgv, hvm, hrun]

/-- If every version visited by the loop is present and upgradeable, the
loop succeeds and invokes `up` exactly once per visited version, in
strictly increasing order. -/
theorem upgradeLoopTrace_ok (vm : ℚ → Option (Version α)) (n : Nat) :
    ∀ (cur : ℚ) (d : α),
      (∀ i : Nat, i < n → ∃ s u, vm (cur + (i : ℚ)) = some (.upgradeable s u)) →
      ∃ v, upgradeLoopTrace vm n cur d =
        ((List.range n).map (fun (j : Nat) => cur + (j : ℚ)), .ok v) := by
  induction n with
  | zero => intro cur d _; exact ⟨d, rfl⟩
  | succ n ih =>
    intro cur d h
    obtain ⟨s, u, hcur⟩ := h 0 (Nat.succ_pos n)
    have hcur' : vm cur = some (.upgradeable s u) := by simpa using hcur
    have hshift : ∀ i : Nat, i < n →
        ∃ s u, vm ((cur + 1) + (i : ℚ)) = some (.upgradeable s u) := by
      intro i hi
      have hnext := h (i + 1) (Nat.succ_lt_succ hi)
      have harg : cur + ((i + 1 : Nat) : ℚ) = (cur + 1) + (i : ℚ) := by push_cast; ring
      rwa [harg] at hnext
    obtain ⟨v, hv⟩ := ih (cur + 1) (u d) hshift
    refine ⟨v, ?_⟩
    unfold upgradeLoopTrace
    rw [hcur']
    simp only [hv]
    rw [range_map_shift]

/-- If the versions strictly before `cur + j` are present and upgradeable
but `cur + j` is absent and still within the fuel budget, the loop stops at
the gap with `BUG_NO_INTERMEDIATE_FOUND`, having invoked `up` exactly for
the versions before the gap. -/
theorem upgradeLoopTrace_gap (vm : ℚ → Option (Version α)) (j : Nat) :
    ∀ (n : Nat) (cur : ℚ) (d : α), j < n →
      (∀ i : Nat, i < j → ∃ s u, vm (cur + (i : ℚ)) = some (.upgradeable s u)) →
      vm (cur + (j : ℚ)) = none →
      upgradeLoopTrace vm n cur d =
        ((List.range j).map (fun (i : Nat) => cur + (i : ℚ)),
          .err (.BUG_NO_INTERMEDIATE_FOUND (cur + (j : ℚ)))) := by
  induction j with
  | zero =>
    intro n cur d hn _ hgap
    obtain ⟨m, rfl⟩ : ∃ m, n = m + 1 := ⟨n - 1, by omega⟩
    have hgap' : vm cur = none := by simpa using hgap
    unfold upgradeLoopTrace
    rw [hgap']
    simp
  | succ j ih =>
    intro n cur d hn h hgap
    obtain ⟨m, rfl⟩ : ∃ m, n = m + 1 := ⟨n - 1, by omega⟩
    obtain ⟨s, u, hcur⟩ := h 0 (Nat.succ_pos j)
    have hcur' : vm cur = some (.upgradeable s u) := by simpa using hcur
    have harg : cur + ((j + 1 : Nat) : ℚ) = (cur + 1) + (j : ℚ) := by push_cast; ring
    have hshift : ∀ i : Nat, i < j →
        ∃ s u, vm ((cur + 1) + (i : ℚ)) = some (.upgradeable s u) := by
      intro i hi
      have hnext := h (i + 1) (Nat.succ_lt_succ hi)
      have harg2 : cur + ((i + 1 : Nat) : ℚ) = (cur + 1) + (i : ℚ) := by push_cast; ring
      rwa [harg2] at hnext
    have hgap' : vm ((cur + 1) + (j : ℚ)) = none := by rwa [harg] at hgap
    have hrec := ih m (cur + 1) (u d) (by omega) hshift hgap'
    unfold upgradeLoopTrace
    rw [hcur']
    simp only [hrec]
    rw [range_map_shift, harg]

/-- If the versions strictly before `cur + j` are present and upgradeable
but `cur + j` is tagged initial and still within the fuel budget, the loop
stops there with `BUG_INTERMEDIATE_MARKED_INITIAL`, having invoked `up`
exactly for the versions before it. -/
theorem upgradeLoopTrace_markedInitial (vm : ℚ → Option (Version α)) (j : Nat) :
    ∀ (n : Nat) (cur : ℚ) (d : α) (s0 : ZodSchema α), j < n →
      (∀ i : Nat, i < j → ∃ s u, vm (cur + (i : ℚ)) = some (.upgradeable s u)) →
      vm (cur + (j : ℚ)) = some (.initial s0) →
      upgradeLoopTrace vm n cur d =
        ((List.range j).map (fun (i : Nat) => cur + (i : ℚ)),
          .err (.BUG_INTERMEDIATE_MARKED_INITIAL (cur + (j : ℚ)))) := by
  induction j with
  | zero =>
    intro n cur d s0 hn _ hini
    obtain ⟨m, rfl⟩ : ∃ m, n = m + 1 := ⟨n - 1, by omega⟩
    have hini' : vm cur = some (.initial s0) := by simpa using hini
    unfold upgradeLoopTrace
    rw [hini']
    simp
  | succ j ih =>
    intro n cur d s0 hn h hini
    obtain ⟨m, rfl⟩ : ∃ m, n = m + 1 := ⟨n - 1, by omega⟩
    obtain ⟨s, u, hcur⟩ := h 0 (Nat.succ_pos j)
    have hcur' : vm cur = some (.upgradeable s u) := by simpa using hcur
    have harg : cur + ((j + 1 : Nat) : ℚ) = (cur + 1) + (j : ℚ) := by push_cast; ring
    have hshift : ∀ i : Nat, i < j →
        ∃ s u, vm ((cur + 1) + (i : ℚ)) = some (.upgradeable s u) := by
      intro i hi
      have hnext := h (i + 1) (Nat.succ_lt_succ hi)
      have harg2 : cur + ((i + 1 : Nat) : ℚ) = (cur + 1) + (i : ℚ) := by push_cast; ring
      rwa [harg2] at hnext
    have hini' : vm ((cur + 1) + (j : ℚ)) = some (.initial s0) := by rwa [harg] at hini
    have hrec := ih m (cur + 1) (u d) s0 (by omega) hshift hini'
    unfold upgradeLoopTrace
    rw [hcur']
    simp only [hrec]
    rw [range_map_shift, harg]

/-- The migration loop never produces a caller-data error: its only error
outcomes are the two `BUG_*` entity-authoring defects. -/
theorem upgradeLoop_no_caller_error (vm : ℚ → Option (Version α)) (n : Nat) :
    ∀ (cur : ℚ) (d : α) (e : ParseError α),
      upgradeLoop vm n cur d = .err e → e.isCallerError = false := by
  induction n with
  | zero =>
    intro cur d e h
    exact absurd h (by simp [upgradeLoop])
  | succ n ih =>
    intro cur d e h
    unfold upgradeLoop at h
    cases hv : vm cur with
    | none =>
      rw [hv] at h
      simp only [ParseResult.err.injEq] at h
      rw [← h]
      rfl
    | some v =>
      cases v with
      | initial s =>
        rw [hv] at h
        simp only [ParseResult.err.injEq] at h
        rw [← h]
        rfl
      | upgradeable s u =>
        rw [hv] at h
        exact ih (cur + 1) (u d) e h

/-! ## Concrete entities used by witnesses and counterexamples -/

/-- A zod-like schema over `ℚ` that accepts every value unchanged. -/
def idSchema : ZodSchema ℚ := ⟨fun x => .success x⟩

/-- A zod-like schema over `ℚ` that accepts every value but, like a zod
schema carrying a `.transform` (or an object schema stripping unknown
keys), returns a parse output different from its input. -/
def incSchema : ZodSchema ℚ := ⟨fun x => .success (x + 1)⟩

/-- Registry with a gap: versions 1 and 3 defined, 2 missing, latest 3. -/
def eGap : VersionedEntity ℚ where
  versionMap q :=
    if q = 1 then some (.initial idSchema)
    else if q = 3 then some (.upgradeable idSchema (fun x => x))
    else none
  latestVersion := 3
  getVersion _ := some 1

/-- Registry with one upgrade before a gap: 1, 2 defined, 3 missing, 4
defined, latest 4. -/
def eGap4 : VersionedEntity ℚ where
  versionMap q :=
    if q = 1 then some (.initial idSchema)
    else if q = 2 then some (.upgradeable idSchema (fun x => x + 1))
    else if q = 4 then some (.upgradeable idSchema (fun x => x))
    else none
  latestVersion := 4
  getVersion _ := some 1

/-- Registry with an intermediate marked initial before a gap: 1 and 2
initial, 3 missing, 4 defined, latest 4. -/
def eIniGap : VersionedEntity ℚ where
  versionMap q :=
    if q = 1 then some (.initial idSchema)
    else if q = 2 then some (.initial idSchema)
    else if q = 4 then some (.upgradeable idSchema (fun x => x))
    else none
  latestVersion := 4
  getVersion _ := some 1

/-- Registry whose version 3 is wrongly tagged initial, after a genuine
upgrade at 2: {1 initial, 2 upgradeable, 3 initial, 4 upgradeable}. -/
def eIni3 : VersionedEntity ℚ where
  versionMap q :=
    if q = 1 then some (.initial idSchema)
    else if q = 2 then some (.upgradeable idSchema (fun x => x + 1))
    else if q = 3 then some (.initial idSchema)
    else if q = 4 then some (.upgradeable idSchema (fun x => x))
    else none
  latestVersion := 4
  getVersion _ := some 1

/-- Registry with two intermediates wrongly tagged initial: {1, 2, 3
initial, 4 upgradeable}. -/
def eTwoIni : VersionedEntity ℚ where
  versionMap q :=
    if q = 1 then some (.initial idSchema)
    else if q = 2 then some (.initial idSchema)
    else if q = 3 then some (.initial idSchema)
    else if q = 4 then some (.upgradeable idSchema (fun x => x))
    else none
  latestVersion := 4
  getVersion _ := some 1

/-- Single-version entity whose only schema transforms its input. -/
def eInc : VersionedEntity ℚ where
  versionMap q := if q = 1 then some (.initial incSchema) else none
  latestVersion := 1
  getVersion _ := some 1

/-- Single-version entity whose only schema is the identity. -/
def eId : VersionedEntity ℚ where
  versionMap q := if q = 1 then some (.initial idSchema) else none
  latestVersion := 1
  getVersion _ := some 1

/-- Well-formed two-version chain: {1 initial, 2 upgradeable}, latest 2. -/
def eChain : VersionedEntity ℚ where
  versionMap q :=
    if q = 1 then some (.initial idSchema)
    else if q = 2 then some (.upgradeable idSchema (fun x => x + 1))
    else none
  latestVersion := 2
  getVersion _ := some 1

/-- Well-formed three-version chain: {1 initial, 2, 3 upgradeable},
latest 3. -/
def eChain3 : VersionedEntity ℚ where
  versionMap q :=
    if q = 1 then some (.initial idSchema)
    else if q = 2 then some (.upgradeable idSchema (fun x => x + 1))
    else if q = 3 then some (.upgradeable idSchema (fun x => x + 1))
    else none
  latestVersion := 3
  getVersion _ := some 1

/-- Entity whose resolver returns the fractional version `3/2`, which is
never a registry key. -/
def eFrac : VersionedEntity ℚ where
  versionMap q := if q = 1 then some (.initial idSchema) else none
  latestVersion := 1
  getVersion _ := some (3 / 2)

/-- Entity agreeing with `eId` at the latest version but with a different
resolver and an extra registry entry at version 2. -/
def e8a : VersionedEntity ℚ where
  versionMap q :=
    if q = 1 then some (.initial idSchema)
    else if q = 2 then some (.initial incSchema)
    else none
  latestVersion := 1
  getVersion _ := none

/-- Entity agreeing with `e8a` at the latest version but with a different
resolver and no entry at version 2. -/
def e8b : VersionedEntity ℚ where
  versionMap q := if q = 1 then some (.initial idSchema) else none
  latestVersion := 1
  getVersion _ := some 99

example : eGap.is 0 = .ok true := by with_unfolding_all rfl
example : eGap.safeParse 0 = .ok (.err (.BUG_NO_INTERMEDIATE_FOUND 2)) := by
  with_unfolding_all rfl
example : eChain3.safeParse 0 = .ok (.ok 2) := by with_unfolding_all rfl
example : (eChain3.safeParseTrace 0).1 = [2, 3] := by with_unfolding_all rfl
example : eIniGap.safeParse 0 = .ok (.err (.BUG_INTERMEDIATE_MARKED_INITIAL 2)) := by
  with_unfolding_all rfl
example : eFrac.safeParse 0 = .ok (.err .INVALID_VER) := by with_unfolding_all rfl

/-! ## The nested-composition scenario (`entityReference` tests) -/

/-- JSON-like values for the nested-composition scenario. -/
inductive Val where
  | num (q : ℚ)
  | str (s : String)
  | obj (fields : List (String × Val))

/-- Property lookup on an object value. -/
def Val.get : Val → String → Option Val
  | .obj fields, k => fields.lookup k
  | _, _ => none

/-- The resolver shared by the nested-composition entities: `data["v"]`
when `data` is an object carrying a numeric `v`, indeterminate otherwise. -/
def objGetVersion (data : Val) : Option ℚ :=
  match data with
  | .obj _ =>
    match data.get "v" with
    | some (.num n) => some n
    | _ => none
  | _ => none

/-- `migrate_child_v1` from the tests:
`z.object({ v: z.literal(1), a: z.number() })`. -/
def migrate_child_v1 : ZodSchema Val where
  run data :=
    match data.get "v", data.get "a" with
    | some (.num v), some (.num a) =>
      if v = 1 then .success (.obj [("v", .num 1), ("a", .num a)])
      else .failure ⟨"invalid_literal"⟩
    | _, _ => .failure ⟨"invalid_type"⟩

/-- `migrate_child_v2` from the tests:
`z.object({ v: z.literal(2), b: z.number() })`. -/
def migrate_child_v2 : ZodSchema Val where
  run data :=
    match data.get "v", data.get "b" with
    | some (.num v), some (.num b) =>
      if v = 2 then .success (.obj [("v", .num 2), ("b", .num b)])
      else .failure ⟨"invalid_literal"⟩
    | _, _ => .failure ⟨"invalid_type"⟩

/-- The child upgrade `old => ({ v: 2, b: old.a })`; it is only ever
applied to data already validated at child version 1. -/
def migrate_child_up (old : Val) : Val :=
  match old.get "a" with
  | some a => .obj [("v", .num 2), ("b", a)]
  | none => .obj [("v", .num 2)]

/-- `migrateChildVersioned` from the tests. -/
def migrateChildVersioned : VersionedEntity Val where
  versionMap q :=
    if q = 1 then some (.initial migrate_child_v1)
    else if q = 2 then some (.upgradeable migrate_child_v2 migrate_child_up)
    else none
  latestVersion := 2
  getVersion := objGetVersion

/-- `migrateChildSchema = entityReference(migrateChildVersioned)`. -/
def migrateChildSchema : ZodSchema Val := entityReference migrateChildVersioned

/-- `migrate_parent_v1` from the tests: `z.object({ v: z.literal(1),
c: z.number(), child: migrateChildSchema })` — the child field is
validated (and migrated) by the child's Reference Adapter. -/
def migrate_parent_v1 : ZodSchema Val where
  run data :=
    match data.get "v", data.get "c", data.get "child" with
    | some (.num v), some (.num c), some child =>
      if v = 1 then
        match migrateChildSchema.run child with
        | .success child2 => .success (.obj [("v", .num 1), ("c", .num c), ("child", child2)])
        | .failure e => .failure e
        | .thrown m => .thrown m
      else .failure ⟨"invalid_literal"⟩
    | _, _, _ => .failure ⟨"invalid_type"⟩

/-- `migrate_parent_v2` from the tests: `z.object({ v: z.literal(2),
d: z.number(), child: migrateChildSchema })`. -/
def migrate_parent_v2 : ZodSchema Val where
  run data :=
    match data.get "v", data.get "d", data.get "child" with
    | some (.num v), some (.num d), some child =>
      if v = 2 then
        match migrateChildSchema.run child with
        | .success child2 => .success (.obj [("v", .num 2), ("d", .num d), ("child", child2)])
        | .failure e => .failure e
        | .thrown m => .thrown m
      else .failure ⟨"invalid_literal"⟩
    | _, _, _ => .failure ⟨"invalid_type"⟩

/-- The parent upgrade `old => ({ v: 2, d: old.c, child: old.child })`; it
passes the child field through untouched. -/
def migrate_parent_up (old : Val) : Val :=
  match old.get "c", old.get "child" with
  | some c, some child => .obj [("v", .num 2), ("d", c), ("child", child)]
  | some c, none => .obj [("v", .num 2), ("d", c)]
  | none, some child => .obj [("v", .num 2), ("child", child)]
  | none, none => .obj [("v", .num 2)]

/-- `migrateParentVersioned` from the tests. -/
def migrateParentVersioned : VersionedEntity Val where
  versionMap q :=
    if q = 1 then some (.initial migrate_parent_v1)
    else if q = 2 then some (.upgradeable migrate_parent_v2 migrate_parent_up)
    else none
  latestVersion := 2
  getVersion := objGetVersion

/-- `migrateParentSchema = entityReference(migrateParentVersioned)`. -/
def migrateParentSchema : ZodSchema Val := entityReference migrateParentVersioned

/-- The input `{v:1, c:4, child:{v:1, a:8}}` of the nested scenario. -/
def nestedInput : Val :=
  .obj [("v", .num 1), ("c", .num 4), ("child", .obj [("v", .num 1), ("a", .num 8)])]

/-- The expected output `{v:2, d:4, child:{v:2, b:8}}` of the nested
scenario. -/
def nestedExpected : Val :=
  .obj [("v", .num 2), ("d", .num 4), ("child", .obj [("v", .num 2), ("b", .num 8)])]

example : migrateChildSchema.run (.obj [("v", .num 1), ("a", .num 8)]) =
    .success (.obj [("v", .num 2), ("b", .num 8)]) := by with_unfolding_all rfl

/-! ## Claim theorems -/

/-- C9: Nested composition — parsing `{v:1, c:4, child:{v:1, a:8}}`
through the parent entity's Reference Adapter succeeds and yields
`{v:2, d:4, child:{v:2, b:8}}`: the child field is migrated by the child's
own adapter while the parent's version-1 schema validates it, and the
parent upgrade (`d = c`) passes the already-migrated child through without
knowing the child's versions. -/
theorem c9_nested_composition :
    migrateParentSchema.run nestedInput = .success nestedExpected := by
  with_unfolding_all rfl

/-- C7 counterexample: `eInc` resolves input `0` to the latest version and
the latest validator accepts `0`, but its parse output is `1`, so
`safeParse` returns Success carrying `1` — not a value structurally equal
to the input `0`.  (The source keeps `pass.data`, the validator's parse
output, which zod schemas with transforms — or object schemas stripping
unknown keys — need not return equal to the input.) -/
theorem c7_counterexample :
    eInc.getVersion 0 = some eInc.latestVersion ∧
    eInc.versionMap eInc.latestVersion = some (.initial incSchema) ∧
    incSchema.run 0 = .success 1 ∧
    eInc.safeParse 0 = .ok (.ok 1) ∧
    (1 : ℚ) ≠ 0 := by
  refine ⟨by with_unfolding_all rfl, by with_unfolding_all rfl,
    by with_unfolding_all rfl, by with_unfolding_all rfl, by norm_num⟩

/-- C7 amended: for every entity and input that resolves to the latest
version and passes the latest version's validator, `safeParse` returns
Success carrying the validator's parse output (hence a value structurally
equal to the input exactly when the validator parses the input back
unchanged), and no upgrade function is invoked. -/
theorem c7_latest_idempotent (α : Type) (e : VersionedEntity α) (x : α)
    (d : Version α) (y : α)
    (hres : e.getVersion x = some e.latestVersion)
    (hdef : e.versionMap e.latestVersion = some d)
    (hpass : d.schema.run x = .success y) :
    e.safeParse x = .ok (.ok y) ∧ (e.safeParseTrace x).1 = [] := by
  have hfuel : ((e.latestVersion - e.latestVersion).floor).toNat = 0 := by
    rw [sub_self]
    with_unfolding_all rfl
  constructor
  · simp [VersionedEntity.safeParse, hres, hdef, hpass, hfuel, upgradeLoop]
  · simp [VersionedEntity.safeParseTrace, hres, hdef, hpass, hfuel, upgradeLoopTrace]

/-- C7 witness: the amended claim applied to the identity entity `eId` at
input `5`, whose validator parses the input unchanged, so `safeParse`
returns the input itself and invokes no upgrade. -/
theorem c7_latest_idempotent_witness :
    eId.safeParse 5 = .ok (.ok 5) ∧ (eId.safeParseTrace 5).1 = [] :=
  c7_latest_idempotent ℚ eId 5 (.initial idSchema) 5 rfl
    (by with_unfolding_all rfl) rfl

/-- C8: `isLatest` returns `ok true` exactly when the input passes the
latest version's validator, and its result depends only on the registry
entry at the latest version: two entities agreeing on the latest version
and on the registry entry there agree on `isLatest` for every input,
whatever their resolvers and their other registry entries do. -/
theorem c8_isLatest_ignores_resolver (α : Type) (e e2 : VersionedEntity α) (x : α)
    (_hlat : e.latestVersion = e2.latestVersion)
    (hmap : e.versionMap e.latestVersion = e2.versionMap e2.latestVersion) :
    (e.isLatest x = .ok true ↔
      ∃ d y, e.versionMap e.latestVersion = some d ∧ d.schema.run x = .success y) ∧
    e.isLatest x = e2.isLatest x := by
  constructor
  · constructor
    · intro h
      cases hvm : e.versionMap e.latestVersion with
      | none => simp [VersionedEntity.isLatest, hvm] at h
      | some d =>
        cases hrun : d.schema.run x with
        | success y => exact ⟨d, y, rfl, hrun⟩
        | failure zerr => simp [VersionedEntity.isLatest, hvm, hrun] at h
        | thrown m => simp [VersionedEntity.isLatest, hvm, hrun] at h
    · rintro ⟨d, y, hvm, hrun⟩
      simp [VersionedEntity.isLatest, hvm, hrun]
  · unfold VersionedEntity.isLatest
    rw [hmap]

/-- C8 witness: `e8a` and `e8b` differ in resolver and in the registry
entry at version 2, but agree at the latest version, and `isLatest`
agrees on input `7`, which passes the latest validator. -/
theorem c8_isLatest_ignores_resolver_witness :
    e8a.isLatest 7 = e8b.isLatest 7 ∧ e8a.isLatest 7 = .ok true := by
  have h := c8_isLatest_ignores_resolver ℚ e8a e8b 7 rfl (by with_unfolding_all rfl)
  exact ⟨h.2, h.1.mpr ⟨.initial idSchema, 7, by with_unfolding_all rfl, rfl⟩⟩

/-- C6: whenever the membership test accepts a value but `safeParse` does
not return Success, the Reference Adapter throws — either the
invariant-violation `Error` or the exception `safeParse` itself propagated
— and never reports the disagreement as an ordinary validation
rejection. -/
theorem c6_adapter_invariant_violation (α : Type) (e : VersionedEntity α) (x : α)
    (his : e.is x = .ok true)
    (hfail : parseSucceeded (e.safeParse x) = false) :
    ((entityReference e).run x).isThrown = true ∧
    ((entityReference e).run x).isFailure = false := by
  cases hsp : e.safeParse x with
  | error m =>
    constructor <;>
      simp [entityReference, his, hsp, ZResult.isThrown, ZResult.isFailure]
  | ok r =>
    cases r with
    | ok v =>
      rw [hsp] at hfail
      simp [parseSucceeded] at hfail
    | err er =>
      constructor <;>
        simp [entityReference, his, hsp, ZResult.isThrown, ZResult.isFailure]

/-- C6 witness: the gap entity `eGap` accepts input `0` by membership, its
`safeParse` fails, and the adapter therefore throws rather than
rejecting. -/
theorem c6_adapter_invariant_violation_witness :
    ((entityReference eGap).run 0).isThrown = true ∧
    ((entityReference eGap).run 0).isFailure = false :=
  c6_adapter_invariant_violation ℚ eGap 0 (by with_unfolding_all rfl)
    (by with_unfolding_all rfl)

/-- C1 counterexample: for the gap registry `eGap` the membership test
accepts input `0` (it resolves to version 1 and passes version 1's
validator), yet `safeParse` does not return Success — it fails with
`BUG_NO_INTERMEDIATE_FOUND{missingVer: 2}`.  The agreement law as stated,
quantified over every entity, is therefore false. -/
theorem c1_counterexample :
    eGap.is 0 = .ok true ∧
    eGap.safeParse 0 = .ok (.err (.BUG_NO_INTERMEDIATE_FOUND 2)) ∧
    parseSucceeded (eGap.safeParse 0) = false := by
  refine ⟨?_, ?_, ?_⟩ <;> with_unfolding_all rfl

/-- C1 amended: the agreement law holds for registries that are well
formed above the resolved version: if `is x` returns `true` and every
version strictly above the resolved version, up to the latest version, is
present and not tagged initial, then `safeParse x` returns Success. -/
theorem c1_agreement (α : Type) (e : VersionedEntity α) (x : α) (ver : ℚ)
    (hgv : e.getVersion x = some ver)
    (his : e.is x = .ok true)
    (hwf : ∀ i : Nat, (ver + 1) + (i : ℚ) ≤ e.latestVersion →
      ∃ s u, e.versionMap ((ver + 1) + (i : ℚ)) = some (.upgradeable s u)) :
    parseSucceeded (e.safeParse x) = true := by
  cases hvm : e.versionMap ver with
  | none => simp [VersionedEntity.is, hgv, hvm] at his
  | some d =>
    cases hrun : d.schema.run x with
    | failure zerr => simp [VersionedEntity.is, hgv, hvm, hrun] at his
    | thrown m => simp [VersionedEntity.is, hgv, hvm, hrun] at his
    | success pass =>
      have hyp : ∀ i : Nat, i < ((e.latestVersion - ver).floor).toNat →
          ∃ s u, e.versionMap ((ver + 1) + (i : ℚ)) = some (.upgradeable s u) := by
        intro i hi
        exact hwf i ((lt_floorFuel_iff e.latestVersion ver i).mp hi)
      obtain ⟨v, hv⟩ := upgradeLoopTrace_ok e.versionMap
        ((e.latestVersion - ver).floor).toNat (ver + 1) pass hyp
      have hloop : upgradeLoop e.versionMap
          ((e.latestVersion - ver).floor).toNat (ver + 1) pass = .ok v := by
        rw [← upgradeLoopTrace_snd, hv]
      simp [parseSucceeded, VersionedEntity.safeParse, hgv, hvm, hrun, hloop]

/-- C1 witness: the amended agreement law applied to the well-formed
two-version chain `eChain` at input `0`. -/
theorem c1_agreement_witness : parseSucceeded (eChain.safeParse 0) = true := by
  refine c1_agreement ℚ eChain 0 1 rfl (by with_unfolding_all rfl) ?_
  intro i hi
  have hle : ((1 : ℚ) + 1) + (i : ℚ) ≤ 2 := hi
  have hi0 : i = 0 := by
    by_contra hne
    have h1 : 1 ≤ i := Nat.one_le_iff_ne_zero.mpr hne
    have h2 : (1 : ℚ) ≤ (i : ℚ) := by exact_mod_cast h1
    linarith
  subst hi0
  exact ⟨idSchema, fun x => x + 1, by with_unfolding_all rfl⟩

/-- C10: `is x` returns `false` exactly when `safeParse x` returns one of
the three caller-data errors (`VER_CHECK_FAIL`, `INVALID_VER`,
`GIVEN_VER_VALIDATION_FAIL`), and returns `true` exactly when `safeParse x`
either succeeds or returns one of the two registry-defect errors — so `is`
can be `true` while `safeParse` fails, exactly when the registry has a
defect above the resolved version. -/
theorem c10_is_safeParse_error_classes (α : Type) (e : VersionedEntity α) (x : α) :
    (e.is x = .ok false ↔
      ∃ er, e.safeParse x = .ok (.err er) ∧ er.isCallerError = true) ∧
    (e.is x = .ok true ↔
      (∃ v, e.safeParse x = .ok (.ok v)) ∨
        ∃ er, e.safeParse x = .ok (.err er) ∧ er.isCallerError = false) := by
  cases hgv : e.getVersion x with
  | none =>
    simp [VersionedEntity.is, VersionedEntity.safeParse, hgv, ParseError.isCallerError]
  | some ver =>
    cases hvm : e.versionMap ver with
    | none =>
      simp [VersionedEntity.is, VersionedEntity.safeParse, hgv, hvm,
        ParseError.isCallerError]
    | some d =>
      cases hrun : d.schema.run x with
      | failure zerr =>
        simp [VersionedEntity.is, VersionedEntity.safeParse, hgv, hvm, hrun,
          ParseError.isCallerError]
      | thrown m =>
        simp [VersionedEntity.is, VersionedEntity.safeParse, hgv, hvm, hrun]
      | success pass =>
        have hnc := upgradeLoop_no_caller_error e.versionMap
          ((e.latestVersion - ver).floor).toNat (ver + 1) pass
        constructor
        · constructor
          · intro h
            simp [VersionedEntity.is, hgv, hvm, hrun] at h
          · rintro ⟨er, her, hcaller⟩
            simp [VersionedEntity.safeParse, hgv, hvm, hrun] at her
            simp [hnc er her] at hcaller
        · constructor
          · intro _
            cases hloop : upgradeLoop e.versionMap
                ((e.latestVersion - ver).floor).toNat (ver + 1) pass with
            | ok v =>
              exact Or.inl ⟨v, by
                simp [VersionedEntity.safeParse, hgv, hvm, hrun, hloop]⟩
            | err er =>
              exact Or.inr ⟨er, by
                simp [VersionedEntity.safeParse, hgv, hvm, hrun, hloop], hnc er hloop⟩
          · intro _
            simp [VersionedEntity.is, hgv, hvm, hrun]

/-- C10 witness: on the gap entity `eGap`, `is` accepts input `0`, so by
the equivalence `safeParse` either succeeds or fails with a registry-defect
error (here it is the latter: the registry has a gap above version 1). -/
theorem c10_is_safeParse_error_classes_witness :
    (∃ v, eGap.safeParse 0 = .ok (.ok v)) ∨
      ∃ er, eGap.safeParse 0 = .ok (.err er) ∧ er.isCallerError = false :=
  (c10_is_safeParse_error_classes ℚ eGap 0).2.mp (by with_unfolding_all rfl)

/-- C5: the pre-migration error classification of `safeParse`:
`VER_CHECK_FAIL` exactly when the resolver is indeterminate; otherwise
`INVALID_VER` exactly when the resolved number — any rational, including
negative, zero or fractional values — is not a registry key; otherwise
`GIVEN_VER_VALIDATION_FAIL` carrying the resolved version, its definition
and the validator's structured rejection detail, exactly when that
version's validator rejects; each such failure happens before any upgrade
step (empty upgrade trace) and is returned as data — `safeParse` itself
only propagates exceptions that a validator itself threw. -/
theorem c5_premigration_classification (α : Type) (e : VersionedEntity α) (x : α) :
    (e.safeParse x = .ok (.err .VER_CHECK_FAIL) ↔ e.getVersion x = none) ∧
    (e.safeParse x = .ok (.err .INVALID_VER) ↔
      ∃ v, e.getVersion x = some v ∧ e.versionMap v = none) ∧
    (∀ (v : ℚ) (d : Version α) (zerr : ZodError),
      e.safeParse x = .ok (.err (.GIVEN_VER_VALIDATION_FAIL v d zerr)) ↔
        e.getVersion x = some v ∧ e.versionMap v = some d ∧
          d.schema.run x = .failure zerr) ∧
    (∀ er : ParseError α, e.safeParse x = .ok (.err er) → er.isCallerError = true →
      (e.safeParseTrace x).1 = []) ∧
    (∀ m : String, e.safeParse x = .error m →
      ∃ v d, e.getVersion x = some v ∧ e.versionMap v = some d ∧
        d.schema.run x = .thrown m) := by
  cases hgv : e.getVersion x with
  | none =>
    simp [VersionedEntity.safeParse, VersionedEntity.safeParseTrace, hgv,
      ParseError.isCallerError]
  | some ver =>
    cases hvm : e.versionMap ver with
    | none =>
      simp [VersionedEntity.safeParse, VersionedEntity.safeParseTrace, hgv, hvm,
        ParseError.isCallerError]
      rintro v d zerr rfl hd
      simp [hvm] at hd
    | some d =>
      cases hrun : d.schema.run x with
      | failure zerr =>
        refine ⟨?_, ?_, ?_, ?_, ?_⟩
        · simp [VersionedEntity.safeParse, hgv, hvm, hrun]
        · constructor
          · intro h
            simp [VersionedEntity.safeParse, hgv, hvm, hrun] at h
          · rintro ⟨v, hv, hmv⟩
            injection hv with hv
            subst hv
            simp [hvm] at hmv
        · intro v d' zerr'
          constructor
          · intro h
            simp only [VersionedEntity.safeParse, hgv, hvm, hrun,
              Except.ok.injEq, ParseResult.err.injEq,
              ParseError.GIVEN_VER_VALIDATION_FAIL.injEq] at h
            obtain ⟨hv, hd, hz⟩ := h
            subst hv
            subst hd
            subst hz
            exact ⟨rfl, hvm, hrun⟩
          · rintro ⟨hv, hd, hz⟩
            injection hv with hv
            subst hv
            rw [hvm] at hd
            injection hd with hd
            subst hd
            rw [hrun] at hz
            injection hz with hz
            subst hz
            simp [VersionedEntity.safeParse, hgv, hvm, hrun]
        · intro er _ _
          simp [VersionedEntity.safeParseTrace, hgv, hvm, hrun]
        · intro m hm
          simp [VersionedEntity.safeParse, hgv, hvm, hrun] at hm
      | thrown m0 =>
        refine ⟨?_, ?_, ?_, ?_, ?_⟩
        · constructor
          · intro h
            simp [VersionedEntity.safeParse, hgv, hvm, hrun] at h
          · intro h
            simp at h
        · constructor
          · intro h
            simp [VersionedEntity.safeParse, hgv, hvm, hrun] at h
          · rintro ⟨v, hv, hmv⟩
            injection hv with hv
            subst hv
            simp [hvm] at hmv
        · intro v d' zerr'
          constructor
          · intro h
            simp [VersionedEntity.safeParse, hgv, hvm, hrun] at h
          · rintro ⟨hv, hd, hz⟩
            injection hv with hv
            subst hv
            rw [hvm] at hd
            injection hd with hd
            subst hd
            rw [hrun] at hz
            simp at hz
        · intro er her _
          simp [VersionedEntity.safeParse, hgv, hvm, hrun] at her
        · intro m hm
          simp only [VersionedEntity.safeParse, hgv, hvm, hrun,
            Except.error.injEq] at hm
          subst hm
          exact ⟨ver, d, rfl, hvm, hrun⟩
      | success pass =>
        have hnc := upgradeLoop_no_caller_error e.versionMap
          ((e.latestVersion - ver).floor).toNat (ver + 1) pass
        have hsp : e.safeParse x = .ok (upgradeLoop e.versionMap
            ((e.latestVersion - ver).floor).toNat (ver + 1) pass) := by
          simp [VersionedEntity.safeParse, hgv, hvm, hrun]
        refine ⟨?_, ?_, ?_, ?_, ?_⟩
        · constructor
          · intro h
            rw [hsp] at h
            simp only [Except.ok.injEq] at h
            have hfalse := hnc _ h
            simp [ParseError.isCallerError] at hfalse
          · intro h
            simp at h
        · constructor
          · intro h
            rw [hsp] at h
            simp only [Except.ok.injEq] at h
            have hfalse := hnc _ h
            simp [ParseError.isCallerError] at hfalse
          · rintro ⟨v, hv, hmv⟩
            injection hv with hv
            subst hv
            simp [hvm] at hmv
        · intro v d' zerr'
          constructor
          · intro h
            rw [hsp] at h
            simp only [Except.ok.injEq] at h
            have hfalse := hnc _ h
            simp [ParseError.isCallerError] at hfalse
          · rintro ⟨hv, hd, hz⟩
            injection hv with hv
            subst hv
            rw [hvm] at hd
            injection hd with hd
            subst hd
            rw [hrun] at hz
            simp at hz
        · intro er her hcaller
          rw [hsp] at her
          simp only [Except.ok.injEq] at her
          simp [hnc er her] at hcaller
        · intro m hm
          rw [hsp] at hm
          cases hm

/-- C5 witness: `eFrac`'s resolver returns the fractional version `3/2`,
which is not a registry key, so by the classification `safeParse` fails
with `INVALID_VER`. -/
theorem c5_premigration_classification_witness :
    eFrac.safeParse 0 = .ok (.err .INVALID_VER) :=
  (c5_premigration_classification ℚ eFrac 0).2.1.mpr
    ⟨3 / 2, rfl, by with_unfolding_all rfl⟩

/-- C2: monotonic migration — for an entity whose registry defines every
version `1..N` contiguously (`N` the latest version, all versions above the
first upgradeable), if the resolver maps the input to version `k`
(`1 ≤ k ≤ N`) and the input passes version `k`'s validator, then
`safeParse` returns Success and the upgrade functions invoked are exactly
those of versions `k+1, ..., N`, in strictly increasing order, each exactly
once and none skipped. -/
theorem c2_monotonic_migration (α : Type) (e : VersionedEntity α) (x : α)
    (N k : Nat) (dk : Version α) (y : α)
    (hk1 : 1 ≤ k) (hkN : k ≤ N)
    (hlat : e.latestVersion = (N : ℚ))
    (_h1 : (e.versionMap 1).isSome = true)
    (hup : ∀ i : Nat, 2 ≤ i → i ≤ N →
      ∃ s u, e.versionMap (i : ℚ) = some (.upgradeable s u))
    (hres : e.getVersion x = some (k : ℚ))
    (hdk : e.versionMap (k : ℚ) = some dk)
    (hpass : dk.schema.run x = .success y) :
    parseSucceeded (e.safeParse x) = true ∧
    (e.safeParseTrace x).1 =
      (List.range (N - k)).map (fun (j : Nat) => ((k : ℚ) + 1) + (j : ℚ)) := by
  have hfuel : ((e.latestVersion - (k : ℚ)).floor).toNat = N - k := by
    rw [hlat]
    exact floorFuel_natCast N k hkN
  have hyp : ∀ i : Nat, i < N - k →
      ∃ s u, e.versionMap (((k : ℚ) + 1) + (i : ℚ)) = some (.upgradeable s u) := by
    intro i hi
    have h2 : 2 ≤ k + 1 + i := by omega
    have h3 : k + 1 + i ≤ N := by omega
    obtain ⟨s, u, hs⟩ := hup (k + 1 + i) h2 h3
    refine ⟨s, u, ?_⟩
    have harg : ((k + 1 + i : Nat) : ℚ) = ((k : ℚ) + 1) + (i : ℚ) := by push_cast; ring
    rwa [harg] at hs
  obtain ⟨v, hv⟩ := upgradeLoopTrace_ok e.versionMap (N - k) ((k : ℚ) + 1) y hyp
  have hloop : upgradeLoop e.versionMap (N - k) ((k : ℚ) + 1) y = .ok v := by
    rw [← upgradeLoopTrace_snd, hv]
  constructor
  · simp [parseSucceeded, VersionedEntity.safeParse, hres, hdk, hpass, hfuel, hloop]
  · simp [VersionedEntity.safeParseTrace, hres, hdk, hpass, hfuel, hv]

/-- C2 witness: the three-version chain `eChain3` at input `0`, resolved
to version 1: `safeParse` succeeds after invoking the upgrades of
versions 2 and 3 in order. -/
theorem c2_monotonic_migration_witness :
    parseSucceeded (eChain3.safeParse 0) = true ∧
    (eChain3.safeParseTrace 0).1 = [2, 3] := by
  have hup : ∀ i : Nat, 2 ≤ i → i ≤ 3 →
      ∃ s u, eChain3.versionMap (i : ℚ) = some (.upgradeable s u) := by
    intro i h2 h3
    interval_cases i
    · exact ⟨idSchema, fun x => x + 1, by with_unfolding_all rfl⟩
    · exact ⟨idSchema, fun x => x + 1, by with_unfolding_all rfl⟩
  have h := c2_monotonic_migration ℚ eChain3 0 3 1 (.initial idSchema) 0
    (le_refl 1) (by norm_num) (by with_unfolding_all rfl) (by with_unfolding_all rfl)
    hup (by with_unfolding_all rfl) (by with_unfolding_all rfl) rfl
  refine ⟨h.1, ?_⟩
  rw [h.2]
  with_unfolding_all rfl

/-- C3 counterexample: in `eIniGap`, version 3 is the (unique, hence
smallest) missing version of the range above the resolved version 1
(`1 < 3 ≤ latest 4`), and input `0` resolves to 1 and passes version 1's
validator — but `safeParse` does not fail with
`BUG_NO_INTERMEDIATE_FOUND{missingVer: 3}`: it stops earlier with
`BUG_INTERMEDIATE_MARKED_INITIAL{ver: 2}` because version 2, though
present, is wrongly tagged initial.  The claim as stated, which asserts
the gap error for every such registry, is therefore false. -/
theorem c3_counterexample :
    eIniGap.versionMap 3 = none ∧
    eIniGap.versionMap 2 = some (.initial idSchema) ∧
    eIniGap.getVersion 0 = some 1 ∧
    eIniGap.versionMap 1 = some (.initial idSchema) ∧
    idSchema.run 0 = .success 0 ∧
    eIniGap.latestVersion = 4 ∧
    eIniGap.safeParse 0 = .ok (.err (.BUG_INTERMEDIATE_MARKED_INITIAL 2)) := by
  refine ⟨?_, ?_, ?_, ?_, ?_, ?_, ?_⟩ <;> with_unfolding_all rfl

/-- C3 amended: gap detection holds when, additionally, every version
strictly between the resolved version and the missing version
`m = ver + 1 + j` is present and not tagged initial: `safeParse` then
fails with `BUG_NO_INTERMEDIATE_FOUND{missingVer: m}` (and `m` is the
smallest missing version above `ver`), stopping at the gap: the upgrades
invoked are exactly those of the versions strictly between `ver` and `m`,
and none at or past `m`. -/
theorem c3_gap_detection (α : Type) (e : VersionedEntity α) (x : α)
    (ver : ℚ) (j : Nat) (d : Version α) (y : α)
    (hres : e.getVersion x = some ver)
    (hd : e.versionMap ver = some d)
    (hpass : d.schema.run x = .success y)
    (hle : (ver + 1) + (j : ℚ) ≤ e.latestVersion)
    (hgap : e.versionMap ((ver + 1) + (j : ℚ)) = none)
    (hbetween : ∀ i : Nat, i < j →
      ∃ s u, e.versionMap ((ver + 1) + (i : ℚ)) = some (.upgradeable s u)) :
    e.safeParse x = .ok (.err (.BUG_NO_INTERMEDIATE_FOUND ((ver + 1) + (j : ℚ)))) ∧
    (e.safeParseTrace x).1 =
      (List.range j).map (fun (i : Nat) => (ver + 1) + (i : ℚ)) := by
  have hj : j < ((e.latestVersion - ver).floor).toNat :=
    (lt_floorFuel_iff e.latestVersion ver j).mpr hle
  have htr := upgradeLoopTrace_gap e.versionMap j ((e.latestVersion - ver).floor).toNat
    (ver + 1) y hj hbetween hgap
  have hloop : upgradeLoop e.versionMap ((e.latestVersion - ver).floor).toNat (ver + 1) y =
      .err (.BUG_NO_INTERMEDIATE_FOUND ((ver + 1) + (j : ℚ))) := by
    rw [← upgradeLoopTrace_snd, htr]
  constructor
  · simp [VersionedEntity.safeParse, hres, hd, hpass, hloop]
  · simp [VersionedEntity.safeParseTrace, hres, hd, hpass, htr]

/-- C3 witness: `eGap4` (versions 1, 2 present, 3 missing, latest 4) at
input `0`: the upgrade of version 2 runs, then the walk stops at the gap
with `missingVer = 3`. -/
theorem c3_gap_detection_witness :
    eGap4.safeParse 0 = .ok (.err (.BUG_NO_INTERMEDIATE_FOUND 3)) ∧
    (eGap4.safeParseTrace 0).1 = [2] := by
  have hbetween : ∀ i : Nat, i < 1 →
      ∃ s u, eGap4.versionMap (((1 : ℚ) + 1) + (i : ℚ)) = some (.upgradeable s u) := by
    intro i hi
    interval_cases i
    exact ⟨idSchema, fun x => x + 1, by with_unfolding_all rfl⟩
  have h := c3_gap_detection ℚ eGap4 0 1 1 (.initial idSchema) 0 rfl
    (by with_unfolding_all rfl) rfl
    (by show ((1 : ℚ) + 1) + ((1 : Nat) : ℚ) ≤ 4; push_cast; norm_num)
    (by with_unfolding_all rfl) hbetween
  have harg : ((1 : ℚ) + 1) + ((1 : Nat) : ℚ) = 3 := by push_cast; norm_num
  rw [harg] at h
  refine ⟨h.1, ?_⟩
  rw [h.2]
  with_unfolding_all rfl

/-- C4 counterexample: in `eTwoIni`, version 3 is an intermediate tagged
initial (resolved 1 < 3 ≤ latest 4, reachable without any gap: versions 2
and 3 are both present), and input `0` resolves to 1 and passes version
1's validator — but `safeParse` does not fail with
`BUG_INTERMEDIATE_MARKED_INITIAL{ver: 3}`: it stops at the earlier
mismarked version 2.  The claim as stated, which asserts `ver = c` for
every such `c`, is therefore false. -/
theorem c4_counterexample :
    eTwoIni.versionMap 3 = some (.initial idSchema) ∧
    eTwoIni.versionMap 2 = some (.initial idSchema) ∧
    eTwoIni.getVersion 0 = some 1 ∧
    eTwoIni.versionMap 1 = some (.initial idSchema) ∧
    idSchema.run 0 = .success 0 ∧
    eTwoIni.latestVersion = 4 ∧
    eTwoIni.safeParse 0 = .ok (.err (.BUG_INTERMEDIATE_MARKED_INITIAL 2)) := by
  refine ⟨?_, ?_, ?_, ?_, ?_, ?_, ?_⟩ <;> with_unfolding_all rfl

/-- C4 amended: mismarked-initial detection holds when `c = ver + 1 + j`
is the first obstruction: if every version strictly between the resolved
version and `c` is present and upgradeable and `c` is present but tagged
initial, then `safeParse` fails with
`BUG_INTERMEDIATE_MARKED_INITIAL{ver: c}` and the upgrades invoked are
exactly those of the versions strictly between `ver` and `c` — none at
`c` or later. -/
theorem c4_mismarked_initial_detection (α : Type) (e : VersionedEntity α) (x : α)
    (ver : ℚ) (j : Nat) (d : Version α) (y : α) (s0 : ZodSchema α)
    (hres : e.getVersion x = some ver)
    (hd : e.versionMap ver = some d)
    (hpass : d.schema.run x = .success y)
    (hle : (ver + 1) + (j : ℚ) ≤ e.latestVersion)
    (hini : e.versionMap ((ver + 1) + (j : ℚ)) = some (.initial s0))
    (hbetween : ∀ i : Nat, i < j →
      ∃ s u, e.versionMap ((ver + 1) + (i : ℚ)) = some (.upgradeable s u)) :
    e.safeParse x = .ok (.err (.BUG_INTERMEDIATE_MARKED_INITIAL ((ver + 1) + (j : ℚ)))) ∧
    (e.safeParseTrace x).1 =
      (List.range j).map (fun (i : Nat) => (ver + 1) + (i : ℚ)) := by
  have hj : j < ((e.latestVersion - ver).floor).toNat :=
    (lt_floorFuel_iff e.latestVersion ver j).mpr hle
  have htr := upgradeLoopTrace_markedInitial e.versionMap j
    ((e.latestVersion - ver).floor).toNat (ver + 1) y s0 hj hbetween hini
  have hloop : upgradeLoop e.versionMap ((e.latestVersion - ver).floor).toNat (ver + 1) y =
      .err (.BUG_INTERMEDIATE_MARKED_INITIAL ((ver + 1) + (j : ℚ))) := by
    rw [← upgradeLoopTrace_snd, htr]
  constructor
  · simp [VersionedEntity.safeParse, hres, hd, hpass, hloop]
  · simp [VersionedEntity.safeParseTrace, hres, hd, hpass, htr]

/-- C4 witness: `eIni3` (version 2 upgradeable, version 3 wrongly tagged
initial, latest 4) at input `0`: the upgrade of version 2 runs, then the
walk stops at version 3 with `BUG_INTERMEDIATE_MARKED_INITIAL{ver: 3}`. -/
theorem c4_mismarked_initial_detection_witness :
    eIni3.safeParse 0 = .ok (.err (.BUG_INTERMEDIATE_MARKED_INITIAL 3)) ∧
    (eIni3.safeParseTrace 0).1 = [2] := by
  have hbetween : ∀ i : Nat, i < 1 →
      ∃ s u, eIni3.versionMap (((1 : ℚ) + 1) + (i : ℚ)) = some (.upgradeable s u) := by
    intro i hi
    interval_cases i
    exact ⟨idSchema, fun x => x + 1, by with_unfolding_all rfl⟩
  have h := c4_mismarked_initial_detection ℚ eIni3 0 1 1 (.initial idSchema) 0 idSchema rfl
    (by with_unfolding_all rfl) rfl
    (by show ((1 : ℚ) + 1) + ((1 : Nat) : ℚ) ≤ 4; push_cast; norm_num)
    (by with_unfolding_all rfl) hbetween
  have harg : ((1 : ℚ) + 1) + ((1 : Nat) : ℚ) = 3 := by push_cast; norm_num
  rw [harg] at h
  refine ⟨h.1, ?_⟩
  rw [h.2]
  with_unfolding_all rfl

end Verzod
